import Mathlib

/-!
Verification development for the meeting-processing orchestration and
entity-resolution core of the ai-meeting-notes application.

The definitions below are shallow embeddings of the backend functions
(`MeetingProcessor.process_meeting`, `EntityManager.create_or_get_entities`,
`EntityManager._parse_entity_string`, the `bulk_delete_entities` route, the
low-usage SQL query and the SQLite schema's cascade semantics).  Python
strings are modelled as `String` where only equality matters and as
`List Char` where character-level parsing is verified; the SQLite store is
modelled as explicit lists of rows; each fallible provider call is modelled
as an `Except` value supplied by the environment.
-/

namespace MeetingNotes

/-! ## Processing orchestrator (`MeetingProcessor.process_meeting`) -/

/-- The transient result assembled by `process_meeting`
(mirrors the `ProcessingResult` Pydantic model / TS interface). -/
structure ProcessingResult where
  transcript : String
  summary : String
  entities : List String
  action_items : List String
deriving DecidableEq, Repr

/-- Outcomes of the external OpenAI calls for one invocation of
`process_meeting`: the Whisper transcription and the three GPT derivation
calls (`generate_summary`, `extract_entities`, `extract_action_items`).
Each is `Except`-valued: `.error` is the exception the call would raise. -/
structure ProviderEnv where
  transcribeResult : Except String String
  summaryResult : Except String String
  entitiesResult : Except String (List String)
  actionItemsResult : Except String (List String)

/-- Python truthiness of an `Optional[str]`: `None` and `""` are falsy. -/
def optTruthy : Option String → Bool
  | none => false
  | some s => !s.isEmpty

/-- The tail of `process_meeting` after the transcript has been settled:
`if not transcript: raise ValueError(...)`, then the
`asyncio.gather(..., return_exceptions=True)` fan-in where each failed
derivation is replaced by its default (`"Summary generation failed"` for
the summary, `[]` for entities and action items). -/
def processWithTranscript (t? : Option String) (env : ProviderEnv) :
    Except String ProcessingResult :=
  match t? with
  | none => .error "Either transcript or audio file must be provided"
  | some t =>
    if t.isEmpty then .error "Either transcript or audio file must be provided"
    else .ok
      { transcript := t
        summary :=
          match env.summaryResult with
          | .ok s => s
          | .error _ => "Summary generation failed"
        entities :=
          match env.entitiesResult with
          | .ok l => l
          | .error _ => []
        action_items :=
          match env.actionItemsResult with
          | .ok l => l
          | .error _ => [] }

/-- `MeetingProcessor.process_meeting`.  The second component of the result
records whether `transcribe_audio` was invoked.  The audio branch runs only
when the supplied transcript is falsy and an audio path is truthy; a
transcription failure re-raises (`Failed to transcribe audio: ...`). -/
def processMeeting (transcript? audioFilePath? : Option String)
    (env : ProviderEnv) : Except String ProcessingResult × Bool :=
  if !optTruthy transcript? && optTruthy audioFilePath? then
    match env.transcribeResult with
    | .error e => (.error ("Failed to transcribe audio: " ++ e), true)
    | .ok t => (processWithTranscript (some t) env, true)
  else
    (processWithTranscript transcript? env, false)

end MeetingNotes

namespace MeetingNotes

/-! ### Theorems: fan-out isolation and total failure -/

/-- A provider environment in which every derivation call fails. -/
def envAllFail : ProviderEnv :=
  { transcribeResult := .error "down"
    summaryResult := .error "summary down"
    entitiesResult := .error "entities down"
    actionItemsResult := .error "actions down" }

/-- C1 counterexample: with the transcript `"Alice met Bob."` and all three
derivation calls failing, `process_meeting` does NOT fail: it returns a
ProcessingResult with all three fields degraded to their defaults.  The
claim that it raises `ProcessingUnavailable` and produces no
ProcessingResult is therefore false on the code. -/
theorem processMeeting_allFail_returns_result :
    (processMeeting (some "Alice met Bob.") none envAllFail).1 =
      .ok ⟨"Alice met Bob.", "Summary generation failed", [], []⟩ := by
  rfl

/-- C1 (amended): if the transcript is non-empty and all three derivation
calls fail, `process_meeting` still returns a ProcessingResult whose three
derived fields are all degraded to their defaults; it raises nothing. -/
theorem processMeeting_allFail_degrades (t : String) (a? : Option String)
    (env : ProviderEnv) (es ee ea : String)
    (ht : t.isEmpty = false)
    (hs : env.summaryResult = .error es)
    (he : env.entitiesResult = .error ee)
    (ha : env.actionItemsResult = .error ea) :
    (processMeeting (some t) a? env).1 =
      .ok ⟨t, "Summary generation failed", [], []⟩ := by
  simp [processMeeting, optTruthy, ht, processWithTranscript, hs, he, ha]

/-- Witness for `processMeeting_allFail_degrades` at a concrete input. -/
theorem processMeeting_allFail_degrades_witness :
    (processMeeting (some "standup notes") (some "a.mp3") envAllFail).1 =
      .ok ⟨"standup notes", "Summary generation failed", [], []⟩ :=
  processMeeting_allFail_degrades "standup notes" (some "a.mp3") envAllFail
    "summary down" "entities down" "actions down" (by decide) rfl rfl rfl

/-- C2: if exactly one of the three derivation calls fails and the other two
succeed, `process_meeting` still returns a ProcessingResult in which the two
successful fields carry the providers' values and only the failed field is
degraded to its default; no error is raised.  Stated as one conjunction
covering the three choices of failing call. -/
theorem processMeeting_one_failure_isolated (t : String) (env : ProviderEnv)
    (ht : t.isEmpty = false) :
    (∀ e s₂ s₃, env.summaryResult = .error e → env.entitiesResult = .ok s₂ →
      env.actionItemsResult = .ok s₃ →
      (processMeeting (some t) none env).1 =
        .ok ⟨t, "Summary generation failed", s₂, s₃⟩) ∧
    (∀ s₁ e s₃, env.summaryResult = .ok s₁ → env.entitiesResult = .error e →
      env.actionItemsResult = .ok s₃ →
      (processMeeting (some t) none env).1 = .ok ⟨t, s₁, [], s₃⟩) ∧
    (∀ s₁ s₂ e, env.summaryResult = .ok s₁ → env.entitiesResult = .ok s₂ →
      env.actionItemsResult = .error e →
      (processMeeting (some t) none env).1 = .ok ⟨t, s₁, s₂, []⟩) := by
  refine ⟨?_, ?_, ?_⟩ <;> intro x y z hx hy hz <;>
    simp [processMeeting, optTruthy, ht, processWithTranscript, hx, hy, hz]

/-- Witness for `processMeeting_one_failure_isolated`: a concrete
environment in which only the summary call fails. -/
theorem processMeeting_one_failure_isolated_witness :
    (processMeeting (some "retro notes") none
      { transcribeResult := .ok "t"
        summaryResult := .error "boom"
        entitiesResult := .ok ["Acme|Company"]
        actionItemsResult := .ok ["ship it"] }).1 =
      .ok ⟨"retro notes", "Summary generation failed", ["Acme|Company"],
        ["ship it"]⟩ :=
  (processMeeting_one_failure_isolated "retro notes"
      { transcribeResult := .ok "t"
        summaryResult := .error "boom"
        entitiesResult := .ok ["Acme|Company"]
        actionItemsResult := .ok ["ship it"] } (by decide)).1
    "boom" ["Acme|Company"] ["ship it"] rfl rfl rfl

/-- C10: when a non-empty transcript is supplied, the audio-transcription
step is never invoked and the returned ProcessingResult's transcript field
is the supplied string unchanged, whatever the outcomes of the three
derivation calls. -/
theorem processMeeting_transcript_passthrough (t : String)
    (a? : Option String) (env : ProviderEnv) (ht : t.isEmpty = false) :
    (processMeeting (some t) a? env).2 = false ∧
    ∃ r, (processMeeting (some t) a? env).1 = .ok r ∧ r.transcript = t := by
  constructor
  · simp [processMeeting, optTruthy, ht]
  · refine ⟨{ transcript := t
              summary :=
                match env.summaryResult with
                | .ok s => s
                | .error _ => "Summary generation failed"
              entities :=
                match env.entitiesResult with
                | .ok l => l
                | .error _ => []
              action_items :=
                match env.actionItemsResult with
                | .ok l => l
                | .error _ => [] }, ?_, rfl⟩
    simp [processMeeting, optTruthy, ht, processWithTranscript]

/-- Witness for `processMeeting_transcript_passthrough` at a concrete
input (audio path present, all calls failing). -/
theorem processMeeting_transcript_passthrough_witness :
    (processMeeting (some "kickoff") (some "b.wav") envAllFail).2 = false ∧
    ∃ r, (processMeeting (some "kickoff") (some "b.wav") envAllFail).1 =
      .ok r ∧ r.transcript = "kickoff" :=
  processMeeting_transcript_passthrough "kickoff" (some "b.wav") envAllFail
    (by decide)

/-! ## Entity-line handling (`extract_entities` / `_parse_entity_string`)

Character-level parsing is verified over `List Char`. -/

/-- Python `str.strip()`: drop leading and trailing whitespace. -/
def pyStrip (s : List Char) : List Char :=
  ((s.dropWhile Char.isWhitespace).reverse.dropWhile Char.isWhitespace).reverse

/-- Python `s.split(sep, 1)` for a single-character separator: split at the
first occurrence, `none` when the separator is absent. -/
def splitFirst (sep : Char) : List Char → Option (List Char × List Char)
  | [] => none
  | c :: rest =>
    if c = sep then some ([], rest)
    else
      match splitFirst sep rest with
      | some (a, b) => some (c :: a, b)
      | none => none

/-- `EntityManager._parse_entity_string`: `"Name|TypeLabel"` splits at the
first `'|'` with both sides stripped; a line without `'|'` is the stripped
name with type label `"Other"`. -/
def parseEntityString (s : List Char) : List Char × List Char :=
  match splitFirst '|' s with
  | some (name, entityType) => (pyStrip name, pyStrip entityType)
  | none => (pyStrip s, "Other".data)

/-- Python `text.split('\n')` (all occurrences, empty pieces kept). -/
def splitLines : List Char → List (List Char)
  | [] => [[]]
  | c :: rest =>
    if c = '\n' then [] :: splitLines rest
    else
      match splitLines rest with
      | a :: tail => (c :: a) :: tail
      | [] => [[c]]

/-- The line handling inside `extract_entities`:
`[e.strip() for e in response.strip().split('\n') if e.strip()]`. -/
def extractEntityLines (raw : List Char) : List (List Char) :=
  (splitLines (pyStrip raw)).filterMap fun l =>
    if pyStrip l = [] then none else some (pyStrip l)

theorem splitFirst_eq_none {sep : Char} {s : List Char} (h : sep ∉ s) :
    splitFirst sep s = none := by
  induction s with
  | nil => rfl
  | cons c rest ih =>
    simp only [List.mem_cons, not_or] at h
    simp [splitFirst, Ne.symm h.1, ih h.2]

theorem splitFirst_eq_some {sep : Char} {s : List Char} (h : sep ∈ s) :
    splitFirst sep s =
      some (s.takeWhile (fun c => c ≠ sep), (s.dropWhile (fun c => c ≠ sep)).tail) := by
  induction s with
  | nil => cases h
  | cons c rest ih =>
    by_cases hc : c = sep
    · subst hc
      simp [splitFirst, List.takeWhile, List.dropWhile]
    · have hmem : sep ∈ rest := by
        rcases List.mem_cons.mp h with h' | h'
        · exact absurd h'.symm hc
        · exact h'
      simp [splitFirst, hc, ih hmem, List.takeWhile, List.dropWhile]

/-- C9: (a) a line containing `'|'` parses into the stripped text before the
first `'|'` as the name and the stripped text after it as the type label;
(b) a line without `'|'` yields the whole stripped line with type `"Other"`;
(c) the surviving entries of `extract_entities` are exactly the non-empty
stripped lines; (d) they appear in the provider's original line order (the
output is a sublist of the stripped lines, never re-sorted). -/
theorem parseEntityString_spec (s raw : List Char) :
    (('|' : Char) ∈ s →
      parseEntityString s =
        (pyStrip (s.takeWhile (fun c => c ≠ '|')),
         pyStrip ((s.dropWhile (fun c => c ≠ '|')).tail))) ∧
    (('|' : Char) ∉ s → parseEntityString s = (pyStrip s, "Other".data)) ∧
    extractEntityLines raw =
      ((splitLines (pyStrip raw)).map pyStrip).filter (fun l => l ≠ []) ∧
    (extractEntityLines raw).Sublist ((splitLines (pyStrip raw)).map pyStrip) := by
  refine ⟨?_, ?_, ?_, ?_⟩
  · intro h
    simp [parseEntityString, splitFirst_eq_some h]
  · intro h
    simp [parseEntityString, splitFirst_eq_none h]
  · unfold extractEntityLines
    induction splitLines (pyStrip raw) with
    | nil => rfl
    | cons l rest ih =>
      by_cases hl : pyStrip l = [] <;>
        simp [List.filterMap, List.filter, hl, ih]
  · unfold extractEntityLines
    induction splitLines (pyStrip raw) with
    | nil => exact List.Sublist.refl _
    | cons l rest ih =>
      by_cases hl : pyStrip l = []
      · simp only [List.filterMap_cons, hl, if_pos rfl, List.map_cons]
        exact ih.cons _
      · simp only [List.filterMap_cons, hl, if_neg hl, List.map_cons]
        exact ih.cons₂ _

/-- Witness for `parseEntityString_spec`: the separator and no-separator
cases at concrete provider lines, and the line filtering on a concrete
three-line response with a blank middle line. -/
theorem parseEntityString_spec_witness :
    parseEntityString ("John Smith|Person".data) =
      (pyStrip (("John Smith|Person".data).takeWhile (fun c => c ≠ '|')),
       pyStrip ((("John Smith|Person".data).dropWhile (fun c => c ≠ '|')).tail)) ∧
    parseEntityString ("Acme Corp".data) =
      (pyStrip ("Acme Corp".data), "Other".data) ∧
    extractEntityLines ("Acme|Company\n  \nSlack|Tool".data) =
      ((splitLines (pyStrip ("Acme|Company\n  \nSlack|Tool".data))).map
        pyStrip).filter (fun l => l ≠ []) :=
  ⟨(parseEntityString_spec ("John Smith|Person".data) []).1 (by decide),
   (parseEntityString_spec ("Acme Corp".data) []).2.1 (by decide),
   (parseEntityString_spec [] ("Acme|Company\n  \nSlack|Tool".data)).2.2.1⟩

/-! ## The entity store

Rows of the SQLite tables `entities`, `meetings` and the junction table
`meeting_entities` (an association is the pair `(meeting_id, entity_id)`). -/

/-- A row of `entities`. -/
structure EntityRec where
  id : Nat
  name : String
  type_slug : String
  description : Option String
  created_at : Nat
deriving DecidableEq, Repr

/-- A row of `meetings` (the fields the core reads). -/
structure MeetingRec where
  id : Nat
  title : String
  date : String
deriving DecidableEq, Repr

/-- The store state: the three tables plus the `AUTOINCREMENT` counter for
`entities.id`. -/
structure Store where
  nextEntityId : Nat
  entities : List EntityRec
  meetings : List MeetingRec
  assocs : List (Nat × Nat)
deriving DecidableEq, Repr

/-- A row of the low-usage report (mirrors the `EntityLowUsage` model). -/
structure EntityLowUsage where
  id : Nat
  name : String
  type_slug : String
  description : Option String
  created_at : Nat
  meeting_id : Nat
  meeting_title : String
  meeting_date : String
deriving DecidableEq, Repr

/-- The associations referencing one entity
(`me.entity_id = e.id` join condition / `COUNT(me.meeting_id)`). -/
def entityAssocs (s : Store) (eid : Nat) : List (Nat × Nat) :=
  s.assocs.filter (fun p => p.2 == eid)

/-- The contribution of one entity row to the low-usage query: the
`JOIN meeting_entities ... GROUP BY e.id HAVING meeting_count = 1` keeps the
row exactly when it has a single association, joined with that meeting's
title and date for display context. -/
def lowUsageRow (s : Store) (e : EntityRec) : Option EntityLowUsage :=
  match entityAssocs s e.id with
  | [p] =>
    match s.meetings.find? (fun m => m.id == p.1) with
    | some m =>
      some ⟨e.id, e.name, e.type_slug, e.description, e.created_at,
            m.id, m.title, m.date⟩
    | none => none
  | _ => none

/-- `get_low_usage_entities`: the low-usage SQL query over the store. -/
def lowUsageEntities (s : Store) : List EntityLowUsage :=
  s.entities.filterMap (lowUsageRow s)

/-- Errors surfaced by single-item store operations. -/
inductive DbError where
  | notFound : DbError
deriving DecidableEq, Repr

/-- Modelled from the spec: the body of `DatabaseManager.delete_entity` is
not in the source excerpts (only its callers and the schema are); modelled
from §4.4 `deleteEntity` and the `ON DELETE CASCADE` foreign keys of
`meeting_entities`: in one transaction the entity row and every association
referencing it are removed; a missing id yields `NotFound`. -/
def deleteEntity (s : Store) (eid : Nat) : Except DbError Store :=
  if s.entities.any (fun e => e.id == eid) then
    .ok { s with
      entities := s.entities.filter (fun e => e.id != eid)
      assocs := s.assocs.filter (fun p => p.2 != eid) }
  else
    .error .notFound

/-! ### Theorems: low-usage invariant and cascade on delete -/

/-- C3: under referential integrity of the associations, an entity appears
in `lowUsageEntities` iff it has exactly one association (zero or
two-or-more are excluded), and every returned row carries the single
associated meeting's title and date. -/
theorem lowUsageEntities_spec (s : Store)
    (hfk : ∀ p ∈ s.assocs, ∃ m ∈ s.meetings, m.id = p.1)
    (e : EntityRec) (he : e ∈ s.entities) :
    ((∃ u ∈ lowUsageEntities s, u.id = e.id) ↔
      (entityAssocs s e.id).length = 1) ∧
    (∀ u ∈ lowUsageEntities s, ∃ m ∈ s.meetings,
      entityAssocs s u.id = [(m.id, u.id)] ∧
      u.meeting_id = m.id ∧ u.meeting_title = m.title ∧
      u.meeting_date = m.date) := by
  constructor
  · constructor
    · rintro ⟨u, hu, hue⟩
      rcases List.mem_filterMap.mp hu with ⟨e', he', hrow⟩
      rcases hA : entityAssocs s e'.id with _ | ⟨p, _ | ⟨q, tail⟩⟩
      · simp [lowUsageRow, hA] at hrow
      · have hid : u.id = e'.id := by
          rcases hF : s.meetings.find? (fun m => m.id == p.1) with _ | m
          · simp [lowUsageRow, hA, hF] at hrow
          · simp only [lowUsageRow, hA, hF] at hrow
            cases hrow; rfl
        have hsame : entityAssocs s e.id = entityAssocs s e'.id := by
          rw [← hue, hid]
        rw [hsame, hA]; rfl
      · simp [lowUsageRow, hA] at hrow
    · intro hlen
      rcases List.length_eq_one.mp hlen with ⟨p, hA⟩
      have hp : p ∈ s.assocs :=
        (List.mem_filter.mp (hA ▸ List.mem_singleton_self p)).1
      rcases hfk p hp with ⟨m, hm, hmid⟩
      rcases hF : s.meetings.find? (fun m' => m'.id == p.1) with _ | m'
      · exact absurd (List.find?_eq_none.mp hF m hm) (by simp [hmid])
      · refine ⟨⟨e.id, e.name, e.type_slug, e.description, e.created_at,
            m'.id, m'.title, m'.date⟩, ?_, rfl⟩
        exact List.mem_filterMap.mpr
          ⟨e, he, by simp only [lowUsageRow, hA, hF]⟩
  · intro u hu
    rcases List.mem_filterMap.mp hu with ⟨e', he', hrow⟩
    rcases hA : entityAssocs s e'.id with _ | ⟨p, _ | ⟨q, tail⟩⟩
    · simp [lowUsageRow, hA] at hrow
    · rcases hF : s.meetings.find? (fun m => m.id == p.1) with _ | m
      · simp [lowUsageRow, hA, hF] at hrow
      · simp only [lowUsageRow, hA, hF] at hrow
        cases hrow
        have hmid : m.id = p.1 := by
          have := List.find?_some hF
          simpa using this
        have hp2 : p.2 = e'.id := by
          have hmem : p ∈ entityAssocs s e'.id := hA ▸ List.mem_singleton_self p
          have := (List.mem_filter.mp hmem).2
          simpa using this
        refine ⟨m, List.mem_of_find?_eq_some hF, ?_, rfl, rfl, rfl⟩
        show entityAssocs s e'.id = [(m.id, e'.id)]
        rw [hA, hmid, ← hp2]
    · simp [lowUsageRow, hA] at hrow

/-- Witness for `lowUsageEntities_spec`: a concrete store where entity 1 has
one association, entity 2 has none and entity 3 has two; only entity 1 is
reported, with its meeting's title and date. -/
theorem lowUsageEntities_spec_witness :
    (∃ u ∈ lowUsageEntities
        ⟨4, [⟨1, "Alice", "person", none, 0⟩, ⟨2, "Acme", "company", none, 1⟩,
             ⟨3, "Slack", "other", none, 2⟩],
         [⟨10, "Kickoff", "2024-01-01"⟩, ⟨11, "Retro", "2024-01-08"⟩],
         [(10, 1), (10, 3), (11, 3)]⟩,
      u.id = 1) ∧
    lowUsageEntities
        ⟨4, [⟨1, "Alice", "person", none, 0⟩, ⟨2, "Acme", "company", none, 1⟩,
             ⟨3, "Slack", "other", none, 2⟩],
         [⟨10, "Kickoff", "2024-01-01"⟩, ⟨11, "Retro", "2024-01-08"⟩],
         [(10, 1), (10, 3), (11, 3)]⟩ =
      [⟨1, "Alice", "person", none, 0, 10, "Kickoff", "2024-01-01"⟩] := by
  constructor
  · exact (lowUsageEntities_spec _ (by decide)
      ⟨1, "Alice", "person", none, 0⟩ (by decide)).1.mpr (by decide)
  · decide

/-- C4: a successful `deleteEntity` leaves no association referencing the
entity, removes the entity row, deletes no meeting, changes nothing else
(all-or-nothing), and a second delete of the same id returns `NotFound`;
`deleteEntity` fails with `NotFound` exactly when the id does not exist,
returning no altered state. -/
theorem deleteEntity_spec (s : Store) (eid : Nat) :
    (∀ s', deleteEntity s eid = .ok s' →
      (∀ p ∈ s'.assocs, p.2 ≠ eid) ∧
      (∀ e ∈ s'.entities, e.id ≠ eid) ∧
      s'.meetings = s.meetings ∧
      s'.entities = s.entities.filter (fun e => e.id != eid) ∧
      s'.assocs = s.assocs.filter (fun p => p.2 != eid) ∧
      deleteEntity s' eid = .error .notFound) ∧
    (deleteEntity s eid = .error .notFound ↔
      ∀ e ∈ s.entities, e.id ≠ eid) := by
  constructor
  · intro s' hok
    rw [deleteEntity] at hok
    by_cases hany : s.entities.any (fun e => e.id == eid)
    · rw [if_pos hany] at hok
      cases hok
      refine ⟨?_, ?_, rfl, rfl, rfl, ?_⟩
      · intro p hp
        have := (List.mem_filter.mp hp).2
        simpa using this
      · intro e hef
        have := (List.mem_filter.mp hef).2
        simpa using this
      · rw [deleteEntity, if_neg]
        simp only [List.any_eq_true, not_exists, not_and]
        intro e hef
        have := (List.mem_filter.mp hef).2
        simpa using this
    · rw [if_neg hany] at hok
      cases hok
  · rw [deleteEntity]
    by_cases hany : s.entities.any (fun e => e.id == eid)
    · rw [if_pos hany]
      constructor
      · intro h; cases h
      · intro hall
        rcases List.any_eq_true.mp hany with ⟨e, he, heq⟩
        exact absurd (by simpa using heq) (hall e he)
    · rw [if_neg hany]
      simp only [true_iff]
      intro e he heq
      exact hany (List.any_eq_true.mpr ⟨e, he, by simpa using heq⟩)

/-- Witness for `deleteEntity_spec`: deleting entity 3 from the concrete
store removes it and both of its associations, keeps both meetings, and a
repeated delete returns `NotFound`. -/
theorem deleteEntity_spec_witness :
    deleteEntity
        ⟨4, [⟨1, "Alice", "person", none, 0⟩, ⟨3, "Slack", "other", none, 2⟩],
         [⟨10, "Kickoff", "2024-01-01"⟩, ⟨11, "Retro", "2024-01-08"⟩],
         [(10, 1), (10, 3), (11, 3)]⟩ 3 =
      .ok ⟨4, [⟨1, "Alice", "person", none, 0⟩],
           [⟨10, "Kickoff", "2024-01-01"⟩, ⟨11, "Retro", "2024-01-08"⟩],
           [(10, 1)]⟩ ∧
    deleteEntity
        ⟨4, [⟨1, "Alice", "person", none, 0⟩],
         [⟨10, "Kickoff", "2024-01-01"⟩, ⟨11, "Retro", "2024-01-08"⟩],
         [(10, 1)]⟩ 3 = .error .notFound := by
  constructor
  · rfl
  · exact (deleteEntity_spec _ 3).2.mpr (by decide)

/-! ## Bulk deletion (`bulk_delete_entities` route)

The route loops `if await db.delete_entity(entity_id): deleted_count += 1`
over `data.ids` and answers `{"deleted": deleted_count, "total": len(data.ids)}`. -/

/-- `db.delete_entity` as the route sees it: a boolean success flag,
leaving the store unchanged on a missing id. -/
def deleteEntityB (s : Store) (eid : Nat) : Store × Bool :=
  match deleteEntity s eid with
  | .ok s' => (s', true)
  | .error _ => (s, false)

/-- The response of the bulk-delete route. -/
structure BulkDeleteReport where
  deleted : Nat
  total : Nat
deriving DecidableEq, Repr

/-- The loop of `bulk_delete_entities`. -/
def bulkDeleteLoop : Store → List Nat → Nat → Store × Nat
  | s, [], acc => (s, acc)
  | s, i :: rest, acc =>
    let r := deleteEntityB s i
    bulkDeleteLoop r.1 rest (if r.2 then acc + 1 else acc)

/-- `bulk_delete_entities`: processes every id and returns the aggregate
counts; there is no validation of the id list. -/
def bulkDeleteEntities (s : Store) (ids : List Nat) :
    Store × BulkDeleteReport :=
  let r := bulkDeleteLoop s ids 0
  (r.1, ⟨r.2, ids.length⟩)

theorem deleteEntityB_fst (s : Store) (i : Nat) :
    (deleteEntityB s i).1 =
      { s with entities := s.entities.filter (fun e => e.id != i)
               assocs :=
                 if s.entities.any (fun e => e.id == i) then
                   s.assocs.filter (fun p => p.2 != i)
                 else s.assocs } := by
  rw [deleteEntityB, deleteEntity]
  by_cases hany : s.entities.any (fun e => e.id == i)
  · rw [if_pos hany, if_pos hany]
  · rw [if_neg hany, if_neg hany]
    have hself : s.entities.filter (fun e => e.id != i) = s.entities := by
      refine List.filter_eq_self.mpr fun e he => ?_
      have : ¬(e.id = i) := fun h => by
        exact hany (List.any_eq_true.mpr ⟨e, he, by simpa using h⟩)
      simpa using this
    cases s
    simp [hself]

theorem deleteEntityB_snd (s : Store) (i : Nat) :
    (deleteEntityB s i).2 = s.entities.any (fun e => e.id == i) := by
  rw [deleteEntityB, deleteEntity]
  by_cases hany : s.entities.any (fun e => e.id == i)
  · rw [if_pos hany, hany]
  · rw [if_neg hany, eq_comm, Bool.eq_false_iff]
    exact hany

theorem bulkDeleteLoop_entities (ids : List Nat) :
    ∀ (s : Store) (acc : Nat),
      (bulkDeleteLoop s ids acc).1.entities =
        s.entities.filter (fun e => !ids.contains e.id) := by
  induction ids with
  | nil =>
    intro s acc
    simp [bulkDeleteLoop]
  | cons i rest ih =>
    intro s acc
    rw [bulkDeleteLoop]
    rw [ih, deleteEntityB_fst]
    simp only [List.filter_filter]
    refine List.filter_congr fun e _ => ?_
    simp only [List.contains_cons]
    cases h : (e.id == i) <;> simp [h, bne]

theorem bulkDeleteLoop_meetings (ids : List Nat) :
    ∀ (s : Store) (acc : Nat),
      (bulkDeleteLoop s ids acc).1.meetings = s.meetings := by
  induction ids with
  | nil => intro s acc; rfl
  | cons i rest ih =>
    intro s acc
    rw [bulkDeleteLoop, ih, deleteEntityB_fst]

theorem bulkDeleteLoop_count (ids : List Nat) :
    ∀ (s : Store) (acc : Nat), ids.Nodup →
      (bulkDeleteLoop s ids acc).2 =
        acc + (ids.filter
          (fun i => s.entities.any (fun e => e.id == i))).length := by
  induction ids with
  | nil => intro s acc _; simp [bulkDeleteLoop]
  | cons i rest ih =>
    intro s acc hnd
    rcases List.nodup_cons.mp hnd with ⟨hi, hrest⟩
    rw [bulkDeleteLoop, ih _ _ hrest]
    have hsame : rest.filter
        (fun j => (deleteEntityB s i).1.entities.any (fun e => e.id == j)) =
        rest.filter (fun j => s.entities.any (fun e => e.id == j)) := by
      refine List.filter_congr fun j hj => ?_
      have hji : j ≠ i := fun h => hi (h ▸ hj)
      rw [deleteEntityB_fst]
      simp only [List.any_filter]
      refine congrArg (fun p => s.entities.any p) (funext fun e => ?_)
      cases h : (e.id == j)
      · simp
      · have hej : e.id = j := by simpa using h
        simp [bne, hej, hji]
    rw [hsame, deleteEntityB_snd, List.filter_cons]
    cases hany : s.entities.any (fun e => e.id == i)
    · simp [hany]
    · simp [hany]
      omega

/-- Fixed concrete store for the bulk-delete counterexamples: two entities,
ids 1 and 2. -/
def storePair : Store :=
  ⟨3, [⟨1, "Alice", "person", none, 0⟩, ⟨2, "Acme", "company", none, 1⟩],
   [], []⟩

/-- C5 counterexample: from the same store, the batches `[1, 99]` and
`[2, 98]` produce identical responses `{deleted := 1, total := 2}`, even
though the id that fails differs (99 in one, 98 in the other).  The
response therefore records no per-id outcome and no `NotFound` tag for
the failing id, contrary to the claim. -/
theorem bulkDelete_report_not_per_id :
    (bulkDeleteEntities storePair [1, 99]).2 =
      (bulkDeleteEntities storePair [2, 98]).2 ∧
    (bulkDeleteEntities storePair [1, 99]).2 = ⟨1, 2⟩ := by
  constructor <;> rfl

/-- C5 (amended): `bulk_delete_entities` processes every id independently —
each id present in the store is deleted even when other ids in the batch do
not exist, nonexistent ids are skipped without aborting or rolling back
anything, no meeting is touched — and it returns only the aggregate report:
`total` is the batch size and `deleted` counts the batch ids that existed. -/
theorem bulkDeleteEntities_spec (s : Store) (ids : List Nat)
    (hnd : ids.Nodup) :
    (bulkDeleteEntities s ids).2.total = ids.length ∧
    (bulkDeleteEntities s ids).2.deleted =
      (ids.filter (fun i => s.entities.any (fun e => e.id == i))).length ∧
    (∀ e ∈ s.entities,
      (e.id ∈ ids → e ∉ (bulkDeleteEntities s ids).1.entities) ∧
      (e.id ∉ ids → e ∈ (bulkDeleteEntities s ids).1.entities)) ∧
    (bulkDeleteEntities s ids).1.meetings = s.meetings := by
  refine ⟨rfl, ?_, ?_, ?_⟩
  · show (bulkDeleteLoop s ids 0).2 = _
    rw [bulkDeleteLoop_count ids s 0 hnd]
    omega
  · intro e he
    constructor
    · intro hmem hcontra
      have hand : e ∈ s.entities ∧ e.id ∉ ids := by
        simpa [bulkDeleteEntities, bulkDeleteLoop_entities] using hcontra
      exact hand.2 hmem
    · intro hnot
      show e ∈ (bulkDeleteLoop s ids 0).1.entities
      rw [bulkDeleteLoop_entities]
      refine List.mem_filter.mpr ⟨he, ?_⟩
      simpa using hnot
  · show (bulkDeleteLoop s ids 0).1.meetings = s.meetings
    exact bulkDeleteLoop_meetings ids s 0

/-- Witness for `bulkDeleteEntities_spec`: the batch `[1, 99]` against the
two-entity store deletes entity 1, skips the absent id 99, keeps entity 2,
and reports 1 of 2 deleted. -/
theorem bulkDeleteEntities_spec_witness :
    (bulkDeleteEntities storePair [1, 99]).2.total = 2 ∧
    (bulkDeleteEntities storePair [1, 99]).2.deleted = 1 ∧
    ⟨1, "Alice", "person", none, 0⟩ ∉
      (bulkDeleteEntities storePair [1, 99]).1.entities ∧
    ⟨2, "Acme", "company", none, 1⟩ ∈
      (bulkDeleteEntities storePair [1, 99]).1.entities := by
  have h := bulkDeleteEntities_spec storePair [1, 99] (by decide)
  refine ⟨h.1, by rw [h.2.1]; decide, ?_, ?_⟩
  · exact (h.2.2.1 ⟨1, "Alice", "person", none, 0⟩ (by decide)).1 (by decide)
  · exact (h.2.2.1 ⟨2, "Acme", "company", none, 1⟩ (by decide)).2 (by decide)

/-- C6 counterexample: a bulk delete with zero ids is not rejected — it
completes normally with the response `{deleted := 0, total := 0}` (and, as
the unchanged store shows, no mutation); there is no `InvalidBatch` error
anywhere in the operation, whose result type carries no error case. -/
theorem bulkDelete_empty_not_rejected :
    bulkDeleteEntities storePair [] = (storePair, ⟨0, 0⟩) := rfl

/-- C6 (amended): `bulk_delete_entities` performs no batch validation: an
empty id list is accepted, mutates nothing and reports 0 of 0 deleted, and
a batch of any length is processed (`total` always equals the batch size —
there is no maximum batch size). -/
theorem bulkDeleteEntities_no_validation (s : Store) (ids : List Nat) :
    bulkDeleteEntities s [] = (s, ⟨0, 0⟩) ∧
    (bulkDeleteEntities s ids).2.total = ids.length :=
  ⟨rfl, rfl⟩

/-! ## Entity resolution (`EntityManager.create_or_get_entities`) -/

/-- `EntityManager._find_existing_entity`: exact-name lookup
(`WHERE name = ?`). -/
def findExistingEntity (s : Store) (name : String) : Option EntityRec :=
  s.entities.find? (fun e => e.name == name)

/-- `EntityManager._map_ai_type_to_slug`: the closed dictionary with
fallback `"other"`. -/
def mapAiTypeToSlug (t : String) : String :=
  if t == "Person" then "person"
  else if t == "Company" then "company"
  else if t == "Project" then "project"
  else if t == "Product" then "other"
  else if t == "Tool" then "other"
  else if t == "Other" then "other"
  else "other"

/-- Python `str.lower()` (character-wise lowering, evaluable in proofs). -/
def pyLower (s : String) : String := ⟨s.data.map Char.toLower⟩

/-- `db.create_entity`: `INSERT INTO entities ...` — the row gets the next
`AUTOINCREMENT` id (the counter also serves as the insertion timestamp). -/
def createEntity (s : Store) (name type_slug : String)
    (description : Option String) : Store × EntityRec :=
  let e : EntityRec :=
    ⟨s.nextEntityId, name, type_slug, description, s.nextEntityId⟩
  ({ s with nextEntityId := s.nextEntityId + 1
            entities := s.entities ++ [e] }, e)

/-- The per-pair body of `create_or_get_entities` after
`_parse_entity_string`: look the name up; on a hit return the stored row
unchanged, otherwise create a row with the mapped slug and an
`Auto-extracted` description. -/
def createOrGetEntity (s : Store) (name entityType : String) :
    Store × EntityRec :=
  match findExistingEntity s name with
  | some e => (s, e)
  | none =>
    createEntity s name (mapAiTypeToSlug entityType)
      (some ("Auto-extracted " ++ pyLower entityType))

/-- C7: when the store already holds an entity with the canonical name
(names being unique), resolving any `(name, typeLabel)` pair with that name
returns the stored record unchanged — same identity, type and description,
for every supplied type label — creates nothing, and resolving the same
pair twice yields the same record both times. -/
theorem createOrGetEntity_existing (s : Store) (n t t' : String)
    (e₀ : EntityRec) (hnd : (s.entities.map (fun e => e.name)).Nodup)
    (he : e₀ ∈ s.entities) (hn : e₀.name = n) :
    createOrGetEntity s n t = (s, e₀) ∧
    createOrGetEntity (createOrGetEntity s n t).1 n t' = (s, e₀) := by
  have hfind : findExistingEntity s n = some e₀ := by
    rw [findExistingEntity]
    rcases hF : s.entities.find? (fun e => e.name == n) with _ | b
    · exact absurd (by simpa using hn)
        (by simpa using List.find?_eq_none.mp hF e₀ he)
    · have hb : b ∈ s.entities := List.mem_of_find?_eq_some hF
      have hbn : b.name = n := by simpa using List.find?_some hF
      have hbe : b = e₀ :=
        List.inj_on_of_nodup_map hnd hb he (by rw [hbn, hn])
      rw [← hbe]
      exact hF
  have h1 : createOrGetEntity s n t = (s, e₀) := by
    rw [createOrGetEntity, hfind]
  exact ⟨h1, by rw [h1, createOrGetEntity, hfind]⟩

/-- Witness for `createOrGetEntity_existing`: resolving
`("Acme Corp", "Company")` twice against a store that already holds
`Acme Corp` (stored with a different type) returns the stored record,
unchanged, both times. -/
theorem createOrGetEntity_existing_witness :
    createOrGetEntity
        ⟨7, [⟨5, "Acme Corp", "other", some "manually created", 0⟩], [], []⟩
        "Acme Corp" "Company" =
      (⟨7, [⟨5, "Acme Corp", "other", some "manually created", 0⟩], [], []⟩,
       ⟨5, "Acme Corp", "other", some "manually created", 0⟩) ∧
    createOrGetEntity
        (createOrGetEntity
          ⟨7, [⟨5, "Acme Corp", "other", some "manually created", 0⟩], [], []⟩
          "Acme Corp" "Company").1 "Acme Corp" "Company" =
      (⟨7, [⟨5, "Acme Corp", "other", some "manually created", 0⟩], [], []⟩,
       ⟨5, "Acme Corp", "other", some "manually created", 0⟩) :=
  createOrGetEntity_existing
    ⟨7, [⟨5, "Acme Corp", "other", some "manually created", 0⟩], [], []⟩
    "Acme Corp" "Company" "Company"
    ⟨5, "Acme Corp", "other", some "manually created", 0⟩
    (by decide) (by decide) rfl

/-! ## Concurrent resolution (two interleaved `create_or_get_entities`)

Each resolver executes two separate store operations: the `SELECT` of
`_find_existing_entity`, then (on a miss) the `INSERT` of
`db.create_entity`.  Each single store operation is atomic (one SQL
statement), and the `INSERT` enforces the schema's `UNIQUE` constraint on
`entities.name` — an insert of a name that meanwhile appeared fails with
an integrity error.  A schedule interleaves the steps of two tasks. -/

/-- Progress of one resolver task. -/
inductive TaskPhase where
  | ready : TaskPhase
  | looked : Option EntityRec → TaskPhase
  | resolved : EntityRec → TaskPhase
  | uniqueViolation : TaskPhase
deriving DecidableEq, Repr

/-- One in-flight `create_or_get` invocation. -/
structure ResolveTask where
  name : String
  entityType : String
  phase : TaskPhase
deriving DecidableEq, Repr

/-- One atomic store operation of a task: the lookup, or the guarded
insert (`UNIQUE(name)` makes the insert fail if the name appeared between
the two steps).  Finished tasks take no further steps. -/
def taskStep (s : Store) (t : ResolveTask) : Store × ResolveTask :=
  match t.phase with
  | .ready => (s, { t with phase := .looked (findExistingEntity s t.name) })
  | .looked (some e) => (s, { t with phase := .resolved e })
  | .looked none =>
    if (findExistingEntity s t.name).isSome then
      (s, { t with phase := .uniqueViolation })
    else
      let r := createEntity s t.name (mapAiTypeToSlug t.entityType)
        (some ("Auto-extracted " ++ pyLower t.entityType))
      (r.1, { t with phase := .resolved r.2 })
  | .resolved _ => (s, t)
  | .uniqueViolation => (s, t)

/-- Run two tasks under a schedule (`true` steps the first task). -/
def runSched : Store → ResolveTask → ResolveTask → List Bool →
    Store × ResolveTask × ResolveTask
  | s, t₁, t₂, [] => (s, t₁, t₂)
  | s, t₁, t₂, true :: rest =>
    let r := taskStep s t₁
    runSched r.1 r.2 t₂ rest
  | s, t₁, t₂, false :: rest =>
    let r := taskStep s t₂
    runSched r.1 t₁ r.2 rest

/-- A fresh resolver task for one `(name, typeLabel)` pair. -/
def mkResolveTask (n t : String) : ResolveTask := ⟨n, t, .ready⟩

/-- Name-uniqueness invariant of the store (`entities.name` is `UNIQUE`). -/
def uniqueNames (s : Store) : Prop :=
  (s.entities.map (fun e => e.name)).Nodup

/-- The store with no entities or meetings. -/
def emptyStore : Store := ⟨1, [], [], []⟩

/-- C8 counterexample: the creation step is NOT a single atomic
insert-if-absent — it is the two-step find-then-insert sequence of
`create_or_get_entities`.  Interleaving two resolutions of
`("Acme Corp", "Company")` as find₁, find₂, insert₁, insert₂ makes both
lookups miss; the first insert succeeds and the second hits the `UNIQUE`
constraint and fails instead of returning the existing record, which an
atomic insert-if-absent would have returned. -/
theorem createOrGet_race_unique_violation :
    (runSched emptyStore (mkResolveTask "Acme Corp" "Company")
      (mkResolveTask "Acme Corp" "Company")
      [true, false, true, false]).2.2.phase = .uniqueViolation ∧
    (runSched emptyStore (mkResolveTask "Acme Corp" "Company")
      (mkResolveTask "Acme Corp" "Company")
      [true, false, true, false]).2.1.phase =
      .resolved ⟨1, "Acme Corp", "company", some "Auto-extracted company", 1⟩ := by
  constructor <;> rfl

theorem taskStep_uniqueNames {s : Store} (t : ResolveTask)
    (h : uniqueNames s) : uniqueNames (taskStep s t).1 := by
  rcases t with ⟨n, ty, ph⟩
  cases ph with
  | ready => simpa [taskStep] using h
  | looked o =>
    cases o with
    | some e => simpa [taskStep] using h
    | none =>
      rcases hF : findExistingEntity s n with _ | e'
      · have habsent : ∀ x ∈ s.entities, x.name ≠ n := by
          intro x hx hcontra
          have hnone := List.find?_eq_none.mp hF x hx
          simp [hcontra] at hnone
        simp only [taskStep, hF, Option.isSome_none, Bool.false_eq_true,
          if_false, createEntity, uniqueNames]
        rw [List.map_append, List.nodup_append]
        refine ⟨h, by simp, ?_⟩
        intro a ha ha'
        rcases List.mem_map.mp ha with ⟨x, hx, rfl⟩
        have hxn : x.name = n := by simpa using ha'
        exact habsent x hx hxn
      · simpa [taskStep, hF] using h
  | resolved e => simpa [taskStep] using h
  | uniqueViolation => simpa [taskStep] using h

/-- C8 (amended): even under an arbitrary interleaving of two concurrent
resolutions, no duplicate entity name is ever created — but the guarantee
comes from the store's `UNIQUE` constraint on the per-step inserts, not
from an atomic insert-if-absent in the resolver, whose find-then-insert
sequence can instead end in a uniqueness violation (see the race above). -/
theorem runSched_no_duplicate_names (sched : List Bool) :
    ∀ (s : Store) (t₁ t₂ : ResolveTask), uniqueNames s →
      uniqueNames (runSched s t₁ t₂ sched).1 := by
  induction sched with
  | nil => intro s t₁ t₂ h; exact h
  | cons b rest ih =>
    intro s t₁ t₂ h
    cases b
    · exact ih _ _ _ (taskStep_uniqueNames t₂ h)
    · exact ih _ _ _ (taskStep_uniqueNames t₁ h)

/-- Witness for `runSched_no_duplicate_names`: the racing schedule of the
counterexample still leaves the store without duplicate names. -/
theorem runSched_no_duplicate_names_witness :
    uniqueNames (runSched emptyStore (mkResolveTask "Acme Corp" "Company")
      (mkResolveTask "Acme Corp" "Company")
      [true, false, true, false]).1 :=
  runSched_no_duplicate_names [true, false, true, false] emptyStore
    (mkResolveTask "Acme Corp" "Company")
    (mkResolveTask "Acme Corp" "Company") (by simp [uniqueNames, emptyStore])

end MeetingNotes
